import Mathlib

/-!
Shallow embedding of the event lifecycle engine of the termometer-bot
repository: the JSON-document event store (`src/db/base_event.py`), the
moderation / signup / resubmission callback handlers
(`src/handlers/events/details.py`, `src/handlers/events/edit.py`), the
visibility predicate (`src/handlers/events/common.py`,
`src/utils/users.py`), the creation wizard's submit step
(`src/handlers/events/creation.py`) and the daily reminder sweep
(`src/handlers/notifications.py`).

Conventions of the embedding:
* Heterogeneous Python runtime values that can appear inside the stored
  JSON document are modelled by the inductive `PyVal`.
* A Python `dict` payload is modelled by the structure `Payload`; a key
  that may be absent from the dict is modelled with an `Option` field
  (`none` = key absent).  String-typed keys whose absence is
  indistinguishable from the empty string in the source (they are only
  read through `data.get(key, "")`) are modelled as plain `String`.
* `datetime` values are modelled as minutes on an abstract local time
  line (`Int`); ISO-8601 parsing (`datetime.fromisoformat`) is an
  abstract parameter `parse : String → Option Int` (`none` models both a
  missing string and a `ValueError`).
-/

/-- An atomic (non-container) Python runtime value as it can occur in an
event document. -/
inductive PyAtom where
  | aInt (n : Int)
  | aBool (b : Bool)
  | aStr (s : String)
  | aNone
deriving DecidableEq, Repr

/-- A Python runtime value as it can occur in an event document: an atom
or a (flat) list of atoms — the only container shape the program ever
stores in the fields this development reasons about. -/
inductive PyVal where
  | atom (a : PyAtom)
  | pList (xs : List PyAtom)
deriving DecidableEq, Repr

namespace PyAtom

/-- Python truthiness (`bool(v)`) for atoms. -/
def truthy : PyAtom → Bool
  | aInt n => n ≠ 0
  | aBool b => b
  | aStr s => s ≠ ""
  | aNone => false

/-- Test `isinstance(v, str)`. -/
def isStr : PyAtom → Bool
  | aStr _ => true
  | _ => false

/-- Coercion `int(v)`: `none` models the `TypeError`/`ValueError` raised when the
value cannot be coerced to an integer. -/
def pyInt : PyAtom → Option Int
  | aInt n => some n
  | aBool b => some (if b then 1 else 0)
  | aStr s => s.toInt?
  | aNone => none

end PyAtom

namespace PyVal

/-- Python truthiness (`bool(v)`) for the modelled values. -/
def truthy : PyVal → Bool
  | atom a => a.truthy
  | pList xs => ¬ xs.isEmpty

end PyVal

/-- A well-formed moderation-message reference, `{"chat_id": c, "message_id": m}`. -/
structure ModMsg where
  chat_id : Int
  message_id : Int
deriving DecidableEq, Repr

/-- A raw entry of the stored `moderation_messages` list:
either a mapping with integer `chat_id`/`message_id` or anything else
(the source keeps only the former). -/
inductive ModEntry where
  | valid (m : ModMsg)
  | invalid
deriving DecidableEq, Repr

def STATUS_PENDING : String := "pending"
def STATUS_APPROVED : String := "approved"
def STATUS_REJECTED : String := "rejected"

/-- The `EventRecord` dataclass of `src/db/base_event.py`. -/
structure EventRecord where
  id : Option Int := none
  title : String := ""
  starts_at : String := ""
  ends_at : String := ""
  location : String := ""
  short_description : String := ""
  contact : String := ""
  contact_name : String := ""
  contact_url : String := ""
  registration_link : String := ""
  attendees : List Int := []
  tags : List PyAtom := []
  status : String := STATUS_PENDING
  created_by : Option Int := none
  creator_name : String := ""
  creator_username : String := ""
  created_at : String := ""
  updated_at : String := ""
  approved_by : Option Int := none
  approved_at : Option String := none
  moderator_note : Option String := none
  moderation_messages : List ModMsg := []
  scheduled_at : String := ""
deriving DecidableEq, Repr

/-- A Python dict payload as it flows through `EventsRepository`.
`Option` fields model possibly-absent keys; for `approved_by`,
`approved_at` and `moderator_note` the inner value may itself be the
Python `None` (modelled by the inner `Option`). -/
structure Payload where
  id : Option Int := none
  title : String := ""
  starts_at : Option String := none
  ends_at : Option String := none
  location : String := ""
  short_description : String := ""
  contact : Option String := none
  contact_name : Option String := none
  contact_url : Option String := none
  registration_link : Option String := none
  attendees : List PyAtom := []
  tags : Option PyVal := none
  status : Option String := none
  created_by : Option Int := none
  creator_name : String := ""
  creator_username : String := ""
  created_at : Option String := none
  updated_at : Option String := none
  approved_by : Option Int := none
  approved_at : Option String := none
  moderator_note : Option String := none
  moderation_messages : List ModEntry := []
  scheduled_at : Option String := none
deriving DecidableEq, Repr

/-- Read `data.get(key) or d` for a string-valued key: both an absent key and
a falsy (empty) string fall back to the default. -/
def orElseStr (v : Option String) (d : String) : String :=
  match v with
  | some s => if s = "" then d else s
  | none => d

/-- The tag normalisation done by `EventRecord.from_dict`:
`list(tags_raw)` when the raw value is a non-string iterable, `[tags_raw]`
when it is truthy and not iterable (or a string), `[]` when falsy. -/
def fromDictTags (t : Option PyVal) : List PyAtom :=
  match t with
  | none => []
  | some v =>
    if v.truthy then
      match v with
      | .pList xs => xs
      | .atom w => [w]
    else []

/-- Function `EventRecord.from_dict` (src/db/base_event.py). -/
def fromDict (p : Payload) : EventRecord :=
  let starts_at := orElseStr p.starts_at (p.scheduled_at.getD "")
  let scheduled_at := match p.scheduled_at with
    | some s => s
    | none => starts_at
  let contact_name := p.contact_name.getD ""
  let contact_url := p.contact_url.getD ""
  let contact0 := p.contact.getD ""
  let contact :=
    if contact0 = "" ∧ contact_name ≠ "" ∧ contact_url ≠ "" then
      contact_name ++ " (" ++ contact_url ++ ")"
    else contact0
  { id := p.id
    title := p.title
    starts_at := starts_at
    ends_at := p.ends_at.getD ""
    location := p.location
    short_description := p.short_description
    contact := contact
    contact_name := contact_name
    contact_url := contact_url
    registration_link := p.registration_link.getD ""
    attendees := p.attendees.filterMap PyAtom.pyInt
    tags := fromDictTags p.tags
    status := p.status.getD STATUS_PENDING
    created_by := p.created_by
    creator_name := p.creator_name
    creator_username := p.creator_username
    created_at := p.created_at.getD ""
    updated_at := p.updated_at.getD ""
    approved_by := p.approved_by
    approved_at := p.approved_at
    moderator_note := p.moderator_note
    moderation_messages := p.moderation_messages.filterMap fun e =>
      match e with
      | .valid m => some m
      | .invalid => none
    scheduled_at := scheduled_at }

/-- Function `EventRecord.to_dict` (src/db/base_event.py). -/
def toDict (r : EventRecord) : Payload :=
  { id := r.id
    title := r.title
    starts_at := some r.starts_at
    ends_at := some r.ends_at
    location := r.location
    short_description := r.short_description
    contact := some r.contact
    contact_name := some r.contact_name
    contact_url := some r.contact_url
    registration_link := some r.registration_link
    attendees := r.attendees.map PyAtom.aInt
    tags := some (PyVal.pList r.tags)
    status := some r.status
    created_by := r.created_by
    creator_name := r.creator_name
    creator_username := r.creator_username
    created_at := some r.created_at
    updated_at := some r.updated_at
    approved_by := r.approved_by
    approved_at := r.approved_at
    moderator_note := r.moderator_note
    moderation_messages := r.moderation_messages.map ModEntry.valid
    scheduled_at := some (if r.starts_at = "" then r.scheduled_at else r.starts_at) }

/-- The tag handling inside `EventsRepository._prepare_payload`:
a falsy raw value becomes `[]`, a string becomes a singleton, any other
iterable keeps exactly its `str` elements, anything else becomes `[]`. -/
def prepareTags (t : Option PyVal) : List PyAtom :=
  match t with
  | none => []
  | some v =>
    if v.truthy then
      match v with
      | .atom (.aStr s) => [PyAtom.aStr s]
      | .pList xs => xs.filter PyAtom.isStr
      | .atom _ => []
    else []

/-- Function `EventsRepository._prepare_payload` (src/db/base_event.py). -/
def preparePayload (p : Payload) (now : String) (isNew : Bool) : Payload :=
  let created_at := if isNew then some (p.created_at.getD now) else p.created_at
  let starts_at := p.starts_at.getD ""
  let scheduled_at :=
    if orElseStr p.scheduled_at "" = "" then starts_at
    else p.scheduled_at.getD ""
  { p with
    created_at := created_at
    updated_at := some now
    tags := some (PyVal.pList (prepareTags p.tags))
    starts_at := some starts_at
    ends_at := some (p.ends_at.getD "")
    contact := some (p.contact.getD "")
    contact_name := some (p.contact_name.getD "")
    contact_url := some (p.contact_url.getD "")
    registration_link := some (p.registration_link.getD "")
    attendees := (p.attendees.filterMap PyAtom.pyInt).map PyAtom.aInt
    scheduled_at := some scheduled_at }

/-- A partial update mapping as passed to `EventsRepository.update`.
The outer `Option` of each field is key presence in the `updates` dict
(`none` = the key is not part of the update); for the nullable fields
the inner `Option` is the Python value itself (so `some none` sets the
field to Python `None`). -/
structure Updates where
  id : Option (Option Int) := none
  title : Option String := none
  starts_at : Option (Option String) := none
  ends_at : Option (Option String) := none
  location : Option String := none
  short_description : Option String := none
  contact : Option (Option String) := none
  contact_name : Option (Option String) := none
  contact_url : Option (Option String) := none
  registration_link : Option (Option String) := none
  attendees : Option (List PyAtom) := none
  tags : Option PyVal := none
  status : Option String := none
  created_by : Option (Option Int) := none
  creator_name : Option String := none
  creator_username : Option String := none
  created_at : Option String := none
  updated_at : Option String := none
  approved_by : Option (Option Int) := none
  approved_at : Option (Option String) := none
  moderator_note : Option (Option String) := none
  moderation_messages : Option (List ModEntry) := none
  scheduled_at : Option (Option String) := none
deriving DecidableEq, Repr

/-- Merge `current_payload.update(updates)`: each key present in `updates`
overwrites the corresponding key of the current payload. -/
def applyUpdates (p : Payload) (u : Updates) : Payload :=
  { id := u.id.getD p.id
    title := u.title.getD p.title
    starts_at := u.starts_at.getD p.starts_at
    ends_at := u.ends_at.getD p.ends_at
    location := u.location.getD p.location
    short_description := u.short_description.getD p.short_description
    contact := u.contact.getD p.contact
    contact_name := u.contact_name.getD p.contact_name
    contact_url := u.contact_url.getD p.contact_url
    registration_link := u.registration_link.getD p.registration_link
    attendees := u.attendees.getD p.attendees
    tags := match u.tags with
      | some v => some v
      | none => p.tags
    status := match u.status with
      | some s => some s
      | none => p.status
    created_by := u.created_by.getD p.created_by
    creator_name := u.creator_name.getD p.creator_name
    creator_username := u.creator_username.getD p.creator_username
    created_at := match u.created_at with
      | some s => some s
      | none => p.created_at
    updated_at := match u.updated_at with
      | some s => some s
      | none => p.updated_at
    approved_by := u.approved_by.getD p.approved_by
    approved_at := u.approved_at.getD p.approved_at
    moderator_note := u.moderator_note.getD p.moderator_note
    moderation_messages := u.moderation_messages.getD p.moderation_messages
    scheduled_at := u.scheduled_at.getD p.scheduled_at }

/-- Method `EventsRepository.insert`: prepare the payload as new, store it with
the freshly assigned id, and return the record read back from the
prepared payload.  The first component is the persisted document, the
second the returned `EventRecord`.  (An `EventRecord` argument goes
through `to_dict` first, exactly as in the source.) -/
def repoInsert (base : Payload) (now : String) (newId : Int) :
    Payload × EventRecord :=
  let prepared := preparePayload base now true
  let prepared := { prepared with id := some newId }
  (prepared, fromDict prepared)

/-- Method `EventsRepository.get` on a stored document: `setdefault("id", event_id)`
followed by `EventRecord.from_dict`. -/
def repoGet (stored : Payload) (eventId : Int) : EventRecord :=
  fromDict { stored with id := some (stored.id.getD eventId) }

/-- Method `EventsRepository.update` on a stored document: read the existing
record, merge the partial update onto its `to_dict` image, re-prepare
(not new) and persist.  First component is the new stored document,
second the returned `EventRecord`. -/
def repoUpdate (stored : Payload) (eventId : Int) (updates : Updates)
    (now : String) : Payload × EventRecord :=
  let existing := repoGet stored eventId
  let current := applyUpdates (toDict existing) updates
  let current :=
    if current.id = none then { current with id := some eventId } else current
  let prepared := preparePayload current now false
  (prepared, fromDict prepared)

/-- The outcome of a callback handler: either no store write happened
(with the `callback.answer` text shown), or `EventsRepository.update`
was called with the given partial update (and the given answer text on
success). -/
inductive HandlerResult where
  | noWrite (answer : String)
  | write (u : Updates) (answer : String)
deriving DecidableEq, Repr

/-- Effect of a handler outcome on the stored document. -/
def applyResult (stored : Payload) (eventId : Int) (now : String) :
    HandlerResult → Payload
  | .noWrite _ => stored
  | .write u _ => (repoUpdate stored eventId u now).1

/-- Predicate `can_manage_event` (src/handlers/events/common.py). -/
def can_manage_event (adminIds : List Int) (userId : Int) (event : EventRecord) : Bool :=
  userId ∈ adminIds ∨ some userId = event.created_by

/-- Predicate `is_user_registered` (src/handlers/events/common.py). -/
def is_user_registered (event : EventRecord) (userId : Int) : Bool :=
  userId ∈ event.attendees

/-- The update dict written by `cb_events_approve`. -/
def approveUpdates (callerId : Int) (now : String) : Updates :=
  { status := some STATUS_APPROVED
    approved_by := some (some callerId)
    approved_at := some (some now)
    moderator_note := some none }

/-- Handler `cb_events_approve` (src/handlers/events/details.py), after the
callback data has been parsed into an event lookup result. -/
def cbApprove (adminIds : List Int) (callerId : Int)
    (event : Option EventRecord) (now : String) : HandlerResult :=
  if callerId ∉ adminIds then .noWrite "Недостаточно прав."
  else match event with
    | none => .noWrite "Событие не найдено."
    | some e =>
      if e.status = STATUS_APPROVED then .noWrite "Уже одобрено."
      else .write (approveUpdates callerId now) "Событие одобрено."

/-- The update dict written by `cb_events_reject`. -/
def rejectUpdates (callerId : Int) (now : String) : Updates :=
  { status := some STATUS_REJECTED
    approved_by := some (some callerId)
    approved_at := some (some now)
    moderator_note := some (some "Событие отклонено администратором.") }

/-- Handler `cb_events_reject` (src/handlers/events/details.py). -/
def cbReject (adminIds : List Int) (callerId : Int)
    (event : Option EventRecord) (now : String) : HandlerResult :=
  if callerId ∉ adminIds then .noWrite "Недостаточно прав."
  else match event with
    | none => .noWrite "Событие не найдено."
    | some e =>
      if e.status = STATUS_REJECTED then .noWrite "Событие уже отклонено."
      else .write (rejectUpdates callerId now) "Событие отклонено."

/-- The update dict written by `cb_events_delete_confirm` (the
resubmission action, src/handlers/events/edit.py). -/
def resubmitUpdates : Updates :=
  { status := some STATUS_PENDING
    approved_by := some none
    approved_at := some none
    moderator_note := some (some "Событие отправлено на повторную модерацию.")
    attendees := some []
    moderation_messages := some [] }

/-- Handler `cb_events_delete_confirm` (src/handlers/events/edit.py). -/
def cbResubmit (adminIds : List Int) (callerId : Int)
    (event : Option EventRecord) : HandlerResult :=
  match event with
  | none => .noWrite "Событие не найдено."
  | some e =>
    if ¬ can_manage_event adminIds callerId e then .noWrite "Недостаточно прав."
    else .write resubmitUpdates "Событие отправлено на модерацию"

/-- The update dict written by `cb_events_signup`:
`attendees = list(event.attendees); attendees.append(user_id)`. -/
def signupUpdates (e : EventRecord) (callerId : Int) : Updates :=
  { attendees := some ((e.attendees ++ [callerId]).map PyAtom.aInt) }

/-- Handler `cb_events_signup` (src/handlers/events/details.py). -/
def cbSignup (callerId : Int) (event : Option EventRecord) : HandlerResult :=
  match event with
  | none => .noWrite "Событие не найдено."
  | some e =>
    if e.status ≠ STATUS_APPROVED then .noWrite "Регистрация пока недоступна."
    else if is_user_registered e callerId then .noWrite "Вы уже записаны на событие."
    else .write (signupUpdates e callerId) "Вы записались на событие."

/-- The update dict written by `cb_events_signoff`:
`[uid for uid in event.attendees if uid != user_id]`. -/
def signoffUpdates (e : EventRecord) (callerId : Int) : Updates :=
  { attendees := some ((e.attendees.filter (· ≠ callerId)).map PyAtom.aInt) }

/-- Handler `cb_events_signoff` (src/handlers/events/details.py). -/
def cbSignoff (callerId : Int) (event : Option EventRecord) : HandlerResult :=
  match event with
  | none => .noWrite "Событие не найдено."
  | some e =>
    if callerId ∉ e.attendees then .noWrite "Вы не записаны на это событие."
    else .write (signoffUpdates e callerId) "Запись отменена."

/-- The payload dict assembled by `cb_creation_submit`
(src/handlers/events/creation.py): the keys it sets, and no others — in
particular no `created_at`, `updated_at`, `id`, `attendees` or
`moderation_messages` key. -/
def wizardPayload (title starts_at ends_at location short_description : String)
    (tags : List PyAtom) (created_by : Int)
    (creator_name creator_username contact_name contact_url registration_link : String) :
    Payload :=
  { title := title
    starts_at := some starts_at
    ends_at := some ends_at
    location := location
    short_description := short_description
    tags := some (PyVal.pList tags)
    status := some STATUS_PENDING
    created_by := some created_by
    creator_name := creator_name
    creator_username := creator_username
    contact_name := some contact_name
    contact_url := some contact_url
    registration_link := some registration_link }

/-- Handler `cb_creation_submit` after the FSM data has been gathered: the
handler inserts only when `event_date`, `start_time` and `end_time` are
all truthy; otherwise it answers an error and writes nothing.  The
date/time strings are combined upstream into the ISO `starts_at`/`ends_at`
strings passed to `wizardPayload`. -/
def wizardSubmit (event_date start_time end_time : String)
    (title starts_at ends_at location short_description : String)
    (tags : List PyAtom) (created_by : Int)
    (creator_name creator_username contact_name contact_url registration_link : String)
    (now : String) (newId : Int) : Option (Payload × EventRecord) :=
  if event_date = "" ∨ start_time = "" ∨ end_time = "" then none
  else some (repoInsert
    (wizardPayload title starts_at ends_at location short_description tags
      created_by creator_name creator_username contact_name contact_url
      registration_link) now newId)

/-- The user profile fields consulted by the visibility rules
(src/db/user.py): `tg_id`, the raw `direction_track` override and the
free-text `direction` (`User.get_direction` defaults to `""`). -/
structure BotUser where
  tg_id : Int
  direction_track : Option String := none
  direction : String := ""
deriving DecidableEq, Repr

/-- Function `get_direction_track` (src/utils/users.py), parameterised by the
direction tables of the `constants` module (which is not part of the
sources at hand). -/
def get_direction_track (bachelorDirs masterDirs : List String)
    (postgraduateDir : String) (direction : Option String) : Option String :=
  match direction with
  | none => none
  | some d =>
    if d = "" then none
    else
      let normalized := d.trim
      if normalized ∈ bachelorDirs then some "bachelor"
      else if normalized ∈ masterDirs then some "master"
      else if normalized = postgraduateDir then some "postgraduate"
      else none

/-- Function `user_track` (src/handlers/events/common.py):
`user.raw.get("direction_track") or get_direction_track(user.get_direction())`. -/
def user_track (bachelorDirs masterDirs : List String) (postgraduateDir : String)
    (user : Option BotUser) : Option String :=
  match user with
  | none => none
  | some u =>
    match u.direction_track with
    | some s =>
      if s = "" then
        get_direction_track bachelorDirs masterDirs postgraduateDir (some u.direction)
      else some s
    | none => get_direction_track bachelorDirs masterDirs postgraduateDir (some u.direction)

def LEGACY_TAG_ALL : String := "all"

/-- Predicate `event_visible_for_user` (src/handlers/events/common.py),
parameterised by `ADMIN_IDS` and the direction tables. -/
def event_visible_for_user (adminIds : List Int)
    (bachelorDirs masterDirs : List String) (postgraduateDir : String)
    (event : EventRecord) (user : Option BotUser) : Bool :=
  let isAdmin : Bool := match user with
    | some u => u.tg_id ∈ adminIds
    | none => false
  let isCreator : Bool := match user with
    | some u => some u.tg_id = event.created_by
    | none => false
  if isAdmin then true
  else if isCreator then true
  else if event.status ≠ STATUS_APPROVED then false
  else if event.tags = [] then true
  else if PyAtom.aStr LEGACY_TAG_ALL ∈ event.tags then true
  else match user_track bachelorDirs masterDirs postgraduateDir user with
    | none => false
    | some track =>
      if track = "" then false
      else PyAtom.aStr track ∈ event.tags

/-- Modelled from the spec: the fixed tag vocabulary `EVENT_TAGS` lives
in the `constants` module, which is not among the sources at hand.  The
spec's glossary and §8 name the track-aligned tags "bachelor", "master"
and "postgraduate" as the vocabulary. -/
def TAG_ORDER : List String := ["bachelor", "master", "postgraduate"]

/-- Function `normalize_tags` (src/handlers/events/common.py):
keep the vocabulary slugs that are in the selected set, in vocabulary
order. -/
def normalize_tags (tags : List String) : List String :=
  TAG_ORDER.filter (· ∈ tags)

/-- Method `EventRecord.scheduled_datetime` (src/db/base_event.py): the parsed
start instant; `parse` abstracts `datetime.fromisoformat` (`none` both
for an empty string and for a parse failure). -/
def scheduledDatetime (parse : String → Option Int) (e : EventRecord) : Option Int :=
  let dateStr := if e.starts_at = "" then e.scheduled_at else e.starts_at
  if dateStr = "" then none else parse dateStr

/-- Calendar date of a local instant measured in minutes. -/
def dateOf (t : Int) : Int := t / 1440

/-- The per-event selection test of `NotificationService._events_for_tomorrow`. -/
def tomorrowSelect (parse : String → Option Int) (tomorrowDate : Int)
    (e : EventRecord) : Bool :=
  decide (e.status = STATUS_APPROVED) &&
    match scheduledDatetime parse e with
    | some t => decide (dateOf t = tomorrowDate)
    | none => false

/-- Method `NotificationService._events_for_tomorrow` (src/handlers/notifications.py). -/
def eventsForTomorrow (parse : String → Option Int)
    (events : List EventRecord) (tomorrowDate : Int) : List EventRecord :=
  events.filter (tomorrowSelect parse tomorrowDate)

/-- One `users_events[user_id].append(event)` on the defaultdict,
modelled on an insertion-ordered association list. -/
def addEventFor : List (Int × List EventRecord) → Int → EventRecord →
    List (Int × List EventRecord)
  | [], uid, e => [(uid, [e])]
  | (k, evs) :: rest, uid, e =>
    if k = uid then (k, evs ++ [e]) :: rest
    else (k, evs) :: addEventFor rest uid e

/-- The grouping loop of `send_tomorrows_reminders`: for each event, for
each de-duplicated attendee id, append the event to that attendee's
list. -/
def usersEvents (events : List EventRecord) : List (Int × List EventRecord) :=
  events.foldl
    (fun acc e => e.attendees.dedup.foldl (fun acc uid => addEventFor acc uid e) acc)
    []

/-- The sort key of a reminder entry:
`_ensure_local(item.scheduled_datetime() or now)`. -/
def reminderKey (parse : String → Option Int) (now : Int) (e : EventRecord) : Int :=
  (scheduledDatetime parse e).getD now

/-- The delivery loop of `NotificationService.send_tomorrows_reminders`:
select tomorrow's events, group them per attendee, sort each attendee's
list chronologically and attempt one consolidated delivery per attendee.
`failing` is the set of recipients whose `send_message` raises; the
boolean of each produced entry records delivery success.  An entry with
no event blocks is skipped (`if not event_blocks: continue`). -/
def reminderDeliveries (parse : String → Option Int) (events : List EventRecord)
    (tomorrowDate now : Int) (failing : List Int) :
    List (Int × List EventRecord × Bool) :=
  let selected := eventsForTomorrow parse events tomorrowDate
  (usersEvents selected).filterMap fun p =>
    let sortedEvs := p.2.insertionSort
      (fun a b => reminderKey parse now a ≤ reminderKey parse now b)
    if sortedEvs.isEmpty then none
    else some (p.1, sortedEvs, decide (p.1 ∉ failing))

/-- A stored document of an approved event created by user 5, with a
stale moderator note, used as a concrete input. -/
def storedApproved5 : Payload :=
  { status := some "approved", created_by := some 5, moderator_note := some "old note" }

/-- The two-step interaction "signup(u) then signoff(u)" against a
single stored event document, each step applied through the store's
read-modify-write pipeline. -/
def signupThenSignoff (stored : Payload) (eventId u : Int) (now1 now2 : String) :
    Payload :=
  applyResult
    (applyResult stored eventId now1 (cbSignup u (some (repoGet stored eventId))))
    eventId now2
    (cbSignoff u (some (repoGet
      (applyResult stored eventId now1 (cbSignup u (some (repoGet stored eventId))))
      eventId)))

/-- A stored document of an approved event whose attendee 7 is already
registered, used as a concrete input. -/
def storedApproved7 : Payload :=
  { status := some "approved", attendees := [PyAtom.aInt 7] }

/-- A stored document of a rejected event, used as a concrete input. -/
def storedRejected : Payload := { status := some "rejected" }

/-- Lookup `users_events[k]` with the defaultdict default `[]`. -/
def assocGet (acc : List (Int × List EventRecord)) (k : Int) : List EventRecord :=
  match acc with
  | [] => []
  | (k', v) :: rest => if k' = k then v else assocGet rest k

/-- The keys of the grouping dict, in insertion order. -/
def assocKeys (acc : List (Int × List EventRecord)) : List Int := acc.map Prod.fst

lemma pyInt_comp_aInt : PyAtom.pyInt ∘ PyAtom.aInt = some :=
  funext fun _ => rfl

lemma filterMap_pyInt_map_aInt (l : List Int) :
    (l.map PyAtom.aInt).filterMap PyAtom.pyInt = l := by
  simp [List.filterMap_map, pyInt_comp_aInt]

lemma repoUpdate_snd_eq (stored : Payload) (eventId : Int) (u : Updates) (now : String) :
    (repoUpdate stored eventId u now).2 = fromDict (repoUpdate stored eventId u now).1 :=
  rfl

lemma preparePayload_status (p : Payload) (now : String) (isNew : Bool) :
    (preparePayload p now isNew).status = p.status := rfl

lemma repoUpdate_status (stored : Payload) (eventId : Int) (u : Updates)
    (now s : String) (h : u.status = some s) :
    (repoUpdate stored eventId u now).2.status = s := by
  unfold repoUpdate applyUpdates
  simp [fromDict, preparePayload, h, apply_ite Payload.status, STATUS_PENDING]

lemma repoUpdate_updated_at (stored : Payload) (eventId : Int) (u : Updates)
    (now : String) :
    (repoUpdate stored eventId u now).2.updated_at = now := by
  unfold repoUpdate applyUpdates
  simp [fromDict, preparePayload, apply_ite Payload.updated_at]

lemma repoUpdate_approved_by (stored : Payload) (eventId : Int) (u : Updates)
    (now : String) (v : Option Int) (h : u.approved_by = some v) :
    (repoUpdate stored eventId u now).2.approved_by = v := by
  unfold repoUpdate applyUpdates
  simp [fromDict, preparePayload, h, apply_ite Payload.approved_by]

lemma repoUpdate_approved_at (stored : Payload) (eventId : Int) (u : Updates)
    (now : String) (v : Option String) (h : u.approved_at = some v) :
    (repoUpdate stored eventId u now).2.approved_at = v := by
  unfold repoUpdate applyUpdates
  simp [fromDict, preparePayload, h, apply_ite Payload.approved_at]

lemma repoUpdate_moderator_note (stored : Payload) (eventId : Int) (u : Updates)
    (now : String) (v : Option String) (h : u.moderator_note = some v) :
    (repoUpdate stored eventId u now).2.moderator_note = v := by
  unfold repoUpdate applyUpdates
  simp [fromDict, preparePayload, h, apply_ite Payload.moderator_note]

lemma repoUpdate_moderation_messages (stored : Payload) (eventId : Int) (u : Updates)
    (now : String) (h : u.moderation_messages = some []) :
    (repoUpdate stored eventId u now).2.moderation_messages = [] := by
  unfold repoUpdate applyUpdates
  simp [fromDict, preparePayload, h, apply_ite Payload.moderation_messages]

lemma repoUpdate_attendees_set (stored : Payload) (eventId : Int) (u : Updates)
    (now : String) (l : List Int) (h : u.attendees = some (l.map PyAtom.aInt)) :
    (repoUpdate stored eventId u now).2.attendees = l := by
  unfold repoUpdate applyUpdates
  simp [fromDict, preparePayload, h, apply_ite Payload.attendees,
    pyInt_comp_aInt]

lemma repoUpdate_attendees_untouched (stored : Payload) (eventId : Int) (u : Updates)
    (now : String) (h : u.attendees = none) :
    (repoUpdate stored eventId u now).2.attendees = (repoGet stored eventId).attendees := by
  unfold repoUpdate applyUpdates
  simp [fromDict, preparePayload, toDict, h, apply_ite Payload.attendees,
    pyInt_comp_aInt]

lemma repoUpdate_created_at_untouched (stored : Payload) (eventId : Int) (u : Updates)
    (now : String) (h : u.created_at = none) :
    (repoUpdate stored eventId u now).2.created_at = (repoGet stored eventId).created_at := by
  unfold repoUpdate applyUpdates
  simp [fromDict, preparePayload, toDict, h, apply_ite Payload.created_at]

lemma repoUpdate_created_at_set (stored : Payload) (eventId : Int) (u : Updates)
    (now s : String) (h : u.created_at = some s) :
    (repoUpdate stored eventId u now).2.created_at = s := by
  unfold repoUpdate applyUpdates
  simp [fromDict, preparePayload, h, apply_ite Payload.created_at]

lemma repoGet_after_update_attendees (stored : Payload) (eventId eventId2 : Int)
    (u : Updates) (now : String) :
    (repoGet (repoUpdate stored eventId u now).1 eventId2).attendees
      = (repoUpdate stored eventId u now).2.attendees := by
  unfold repoGet repoUpdate
  rfl

lemma repoGet_after_update_status (stored : Payload) (eventId eventId2 : Int)
    (u : Updates) (now : String) :
    (repoGet (repoUpdate stored eventId u now).1 eventId2).status
      = (repoUpdate stored eventId u now).2.status := by
  unfold repoGet repoUpdate
  rfl

/-- C10: for every record produced by the store paths (`from_dict`, and
the payload preparation used by `insert`/`update`), the attendees list
is obtained by coercing each raw entry with `int()` and silently
dropping every entry whose coercion raises, so all persisted attendee
entries are integers. -/
theorem attendees_are_coerced_integers (p stored base : Payload)
    (eventId newId : Int) (now : String) (isNew : Bool) :
    (fromDict p).attendees = p.attendees.filterMap PyAtom.pyInt
    ∧ (preparePayload p now isNew).attendees
        = (p.attendees.filterMap PyAtom.pyInt).map PyAtom.aInt
    ∧ (repoGet stored eventId).attendees = stored.attendees.filterMap PyAtom.pyInt
    ∧ (repoInsert base now newId).2.attendees = base.attendees.filterMap PyAtom.pyInt := by
  refine ⟨rfl, rfl, rfl, ?_⟩
  simp [repoInsert, preparePayload, fromDict, List.filterMap_map, pyInt_comp_aInt]

/-- C5: a draft submitted through the creation wizard's confirmation
step (which requires a truthy date, start time and end time) is inserted
with status `pending` and with `created_at` equal to `updated_at`. -/
theorem wizard_submit_pending_timestamps
    (event_date start_time end_time : String)
    (title starts_at ends_at location short_description : String)
    (tags : List PyAtom) (created_by : Int)
    (creator_name creator_username contact_name contact_url registration_link : String)
    (now : String) (newId : Int)
    (hd : event_date ≠ "") (hs : start_time ≠ "") (he : end_time ≠ "") :
    wizardSubmit event_date start_time end_time title starts_at ends_at location
        short_description tags created_by creator_name creator_username contact_name
        contact_url registration_link now newId
      = some (repoInsert (wizardPayload title starts_at ends_at location
          short_description tags created_by creator_name creator_username contact_name
          contact_url registration_link) now newId)
    ∧ (repoInsert (wizardPayload title starts_at ends_at location
          short_description tags created_by creator_name creator_username contact_name
          contact_url registration_link) now newId).2.status = STATUS_PENDING
    ∧ (repoInsert (wizardPayload title starts_at ends_at location
          short_description tags created_by creator_name creator_username contact_name
          contact_url registration_link) now newId).2.created_at
      = (repoInsert (wizardPayload title starts_at ends_at location
          short_description tags created_by creator_name creator_username contact_name
          contact_url registration_link) now newId).2.updated_at := by
  refine ⟨?_, rfl, rfl⟩
  unfold wizardSubmit
  simp [hd, hs, he]

theorem wizard_submit_pending_timestamps_witness :
    ("2025-03-10" : String) ≠ "" ∧ ("18:00" : String) ≠ "" ∧ ("20:00" : String) ≠ ""
    ∧ (wizardSubmit "2025-03-10" "18:00" "20:00" "T" "S" "E" "L" "D"
          [PyAtom.aStr "bachelor"] 1 "N" "U" "C" "CU" "R" "NOW" 1
        = some (repoInsert (wizardPayload "T" "S" "E" "L" "D"
            [PyAtom.aStr "bachelor"] 1 "N" "U" "C" "CU" "R") "NOW" 1)
      ∧ (repoInsert (wizardPayload "T" "S" "E" "L" "D"
            [PyAtom.aStr "bachelor"] 1 "N" "U" "C" "CU" "R") "NOW" 1).2.status
          = STATUS_PENDING
      ∧ (repoInsert (wizardPayload "T" "S" "E" "L" "D"
            [PyAtom.aStr "bachelor"] 1 "N" "U" "C" "CU" "R") "NOW" 1).2.created_at
        = (repoInsert (wizardPayload "T" "S" "E" "L" "D"
            [PyAtom.aStr "bachelor"] 1 "N" "U" "C" "CU" "R") "NOW" 1).2.updated_at) :=
  ⟨by decide, by decide, by decide,
    wizard_submit_pending_timestamps "2025-03-10" "18:00" "20:00" "T" "S" "E" "L" "D"
      [PyAtom.aStr "bachelor"] 1 "N" "U" "C" "CU" "R" "NOW" 1
      (by decide) (by decide) (by decide)⟩

/-- C6: approving an already-approved event, or rejecting an
already-rejected one, writes nothing to the store (so `approved_by` and
`approved_at` keep their values) and answers with a distinct no-op
message. -/
theorem approve_reject_idempotent (adminIds : List Int) (callerId : Int)
    (stored : Payload) (eventId : Int) (now : String)
    (hadmin : callerId ∈ adminIds) :
    ((repoGet stored eventId).status = STATUS_APPROVED →
      cbApprove adminIds callerId (some (repoGet stored eventId)) now
          = .noWrite "Уже одобрено."
        ∧ applyResult stored eventId now
            (cbApprove adminIds callerId (some (repoGet stored eventId)) now) = stored)
    ∧ ((repoGet stored eventId).status = STATUS_REJECTED →
      cbReject adminIds callerId (some (repoGet stored eventId)) now
          = .noWrite "Событие уже отклонено."
        ∧ applyResult stored eventId now
            (cbReject adminIds callerId (some (repoGet stored eventId)) now) = stored) := by
  constructor
  · intro h
    have heq : cbApprove adminIds callerId (some (repoGet stored eventId)) now
        = .noWrite "Уже одобрено." := by
      unfold cbApprove
      simp [hadmin, h]
    exact ⟨heq, by rw [heq]; rfl⟩
  · intro h
    have heq : cbReject adminIds callerId (some (repoGet stored eventId)) now
        = .noWrite "Событие уже отклонено." := by
      unfold cbReject
      simp [hadmin, h]
    exact ⟨heq, by rw [heq]; rfl⟩

theorem approve_reject_idempotent_witness :
    cbApprove [1] 1 (some (repoGet ({ status := some "approved" } : Payload) 5)) "T"
        = .noWrite "Уже одобрено."
    ∧ applyResult ({ status := some "approved" } : Payload) 5 "T"
        (cbApprove [1] 1 (some (repoGet ({ status := some "approved" } : Payload) 5)) "T")
      = ({ status := some "approved" } : Payload) :=
  (approve_reject_idempotent [1] 1 ({ status := some "approved" } : Payload) 5 "T"
    (by decide)).1 (by decide)

lemma user_track_ne_empty (bachelorDirs masterDirs : List String)
    (postgraduateDir : String) (user : Option BotUser) :
    user_track bachelorDirs masterDirs postgraduateDir user ≠ some "" := by
  unfold user_track get_direction_track
  cases user with
  | none => simp
  | some v =>
    cases h : v.direction_track with
    | none =>
      dsimp only
      rw [h]
      split_ifs <;> simp_all
    | some s =>
      dsimp only
      rw [h]
      by_cases hs : s = ""
      · simp only [hs, if_pos]
        split_ifs <;> simp_all
      · simp [hs]

/-- C2: the visibility predicate returns true for administrators and the
event's creator; otherwise it is false unless the event is approved, and
for approved events it is true exactly when the tag list is empty,
contains the "all" sentinel, or contains the viewer's derived track —
false when the viewer has no resolvable track. -/
theorem visibility_matches_claim (adminIds : List Int)
    (bachelorDirs masterDirs : List String) (postgraduateDir : String)
    (event : EventRecord) (user : Option BotUser) :
    event_visible_for_user adminIds bachelorDirs masterDirs postgraduateDir event user = true
      ↔ ((∃ u, user = some u ∧ u.tg_id ∈ adminIds)
        ∨ (∃ u, user = some u ∧ some u.tg_id = event.created_by)
        ∨ (event.status = STATUS_APPROVED
            ∧ (event.tags = []
              ∨ PyAtom.aStr LEGACY_TAG_ALL ∈ event.tags
              ∨ ∃ track,
                  user_track bachelorDirs masterDirs postgraduateDir user = some track
                  ∧ PyAtom.aStr track ∈ event.tags))) := by
  have hne := user_track_ne_empty bachelorDirs masterDirs postgraduateDir user
  unfold event_visible_for_user
  cases user with
  | none =>
    simp only [user_track]
    split_ifs with h1 h2 h3 h4 <;> simp_all
  | some v =>
    cases htrack : user_track bachelorDirs masterDirs postgraduateDir (some v) with
    | none => split_ifs <;> simp_all
    | some t =>
      have ht : t ≠ "" := by
        intro h
        exact hne (h ▸ htrack)
      split_ifs <;> simp_all

lemma repoUpdate_status_untouched (stored : Payload) (eventId : Int) (u : Updates)
    (now : String) (h : u.status = none) :
    (repoUpdate stored eventId u now).2.status = (repoGet stored eventId).status := by
  unfold repoUpdate applyUpdates
  simp [fromDict, preparePayload, toDict, h, apply_ite Payload.status, STATUS_PENDING]

/-- C8 counterexample: the store's write path keeps a string tag that is
outside the fixed vocabulary — inserting a payload whose tag list is
`["quantum"]` persists `["quantum"]` even though `"quantum"` is not a
vocabulary slug. -/
theorem tags_vocabulary_cex :
    (repoInsert ({ tags := some (PyVal.pList [PyAtom.aStr "quantum"]) } : Payload)
        "T" 1).1.tags = some (PyVal.pList [PyAtom.aStr "quantum"])
    ∧ (repoInsert ({ tags := some (PyVal.pList [PyAtom.aStr "quantum"]) } : Payload)
        "T" 1).2.tags = [PyAtom.aStr "quantum"]
    ∧ "quantum" ∉ TAG_ORDER := by decide

/-- C8 amended: on write the store drops only the non-string entries of
the tag list; vocabulary filtering is performed solely by
`normalize_tags` in the tag-selection handlers, whose output is always
contained in the vocabulary. -/
theorem tags_write_filters_nonstrings (p : Payload) (now : String) (isNew : Bool)
    (xs : List PyAtom) (selected : List String) :
    (preparePayload p now isNew).tags = some (PyVal.pList (prepareTags p.tags))
    ∧ prepareTags (some (PyVal.pList xs)) = xs.filter PyAtom.isStr
    ∧ ∀ s ∈ normalize_tags selected, s ∈ TAG_ORDER := by
  refine ⟨rfl, ?_, ?_⟩
  · cases xs with
    | nil => rfl
    | cons a t => simp [prepareTags, PyVal.truthy]
  · intro s hs
    exact List.mem_of_mem_filter hs

/-- C9 counterexample: inserting a record that carries an empty
`created_at` (the `EventRecord` dataclass default) persists the empty
string, and an update whose partial fields include `created_at`
overwrites the insertion-time value. -/
theorem timestamps_cex :
    (repoInsert (toDict ({} : EventRecord)) "2025-01-01T00:00:00" 1).2.created_at = ""
    ∧ (repoUpdate (repoInsert (toDict ({} : EventRecord)) "2025-01-01T00:00:00" 1).1 1
        ({ created_at := some "LATER" } : Updates) "2025-01-02T00:00:00").2.created_at
      = "LATER" := by decide

/-- C9 amended: for an insert whose payload does not carry a
`created_at` key, both timestamps are stamped with the (non-empty)
current time and are non-empty afterwards; an update whose partial
fields do not include `created_at` preserves it and re-stamps only
`updated_at`. -/
theorem timestamps_amended (base stored : Payload) (eventId newId : Int)
    (now now2 : String) (u : Updates)
    (hb : base.created_at = none) (hu : u.created_at = none) (hn : now ≠ "") :
    (repoInsert base now newId).2.created_at = now
    ∧ (repoInsert base now newId).2.updated_at = now
    ∧ (repoInsert base now newId).2.created_at ≠ ""
    ∧ (repoInsert base now newId).2.updated_at ≠ ""
    ∧ (repoUpdate stored eventId u now2).2.created_at = (repoGet stored eventId).created_at
    ∧ (repoUpdate stored eventId u now2).2.updated_at = now2 := by
  have h1 : (repoInsert base now newId).2.created_at = now := by
    simp [repoInsert, preparePayload, fromDict, hb]
  have h2 : (repoInsert base now newId).2.updated_at = now := by
    simp [repoInsert, preparePayload, fromDict]
  refine ⟨h1, h2, ?_, ?_,
    repoUpdate_created_at_untouched stored eventId u now2 hu,
    repoUpdate_updated_at stored eventId u now2⟩
  · rw [h1]; exact hn
  · rw [h2]; exact hn

theorem timestamps_amended_witness :
    (({} : Payload).created_at = none ∧ ({} : Updates).created_at = none
      ∧ ("NOW" : String) ≠ "")
    ∧ ((repoInsert ({} : Payload) "NOW" 1).2.created_at = "NOW"
    ∧ (repoInsert ({} : Payload) "NOW" 1).2.updated_at = "NOW"
    ∧ (repoInsert ({} : Payload) "NOW" 1).2.created_at ≠ ""
    ∧ (repoInsert ({} : Payload) "NOW" 1).2.updated_at ≠ ""
    ∧ (repoUpdate ({ status := some "approved" } : Payload) 2 ({} : Updates) "T2").2.created_at
        = (repoGet ({ status := some "approved" } : Payload) 2).created_at
    ∧ (repoUpdate ({ status := some "approved" } : Payload) 2 ({} : Updates) "T2").2.updated_at
        = "T2") :=
  ⟨⟨rfl, rfl, by decide⟩,
    timestamps_amended ({} : Payload) ({ status := some "approved" } : Payload) 2 1
      "NOW" "T2" ({} : Updates) rfl rfl (by decide)⟩

/-- C3 counterexample: resubmitting an approved event does not reset
`moderator_note` to null — the handler writes a fixed non-null notice
string. -/
theorem resubmit_note_cex :
    cbResubmit [1] 5 (some (repoGet storedApproved5 1))
      = .write resubmitUpdates "Событие отправлено на модерацию"
    ∧ (repoUpdate storedApproved5 1 resubmitUpdates "T").2.moderator_note
      = some "Событие отправлено на повторную модерацию."
    ∧ (repoUpdate storedApproved5 1 resubmitUpdates "T").2.moderator_note ≠ none := by
  decide

/-- C3 amended: for an approved or rejected event, the resubmission
action (performed by a manager) sets status back to pending, nulls
`approved_by` and `approved_at`, sets `moderator_note` to the fixed
resubmission notice (not null), and clears both `attendees` and
`moderation_messages` regardless of their prior contents. -/
theorem resubmit_resets_fields (adminIds : List Int) (callerId : Int)
    (stored : Payload) (eventId : Int) (now : String)
    (hmanage : can_manage_event adminIds callerId (repoGet stored eventId) = true)
    (hstatus : (repoGet stored eventId).status = STATUS_APPROVED
      ∨ (repoGet stored eventId).status = STATUS_REJECTED) :
    cbResubmit adminIds callerId (some (repoGet stored eventId))
        = .write resubmitUpdates "Событие отправлено на модерацию"
    ∧ (repoUpdate stored eventId resubmitUpdates now).2.status = STATUS_PENDING
    ∧ (repoUpdate stored eventId resubmitUpdates now).2.approved_by = none
    ∧ (repoUpdate stored eventId resubmitUpdates now).2.approved_at = none
    ∧ (repoUpdate stored eventId resubmitUpdates now).2.moderator_note
        = some "Событие отправлено на повторную модерацию."
    ∧ (repoUpdate stored eventId resubmitUpdates now).2.attendees = []
    ∧ (repoUpdate stored eventId resubmitUpdates now).2.moderation_messages = [] := by
  refine ⟨?_,
    repoUpdate_status stored eventId resubmitUpdates now STATUS_PENDING rfl,
    repoUpdate_approved_by stored eventId resubmitUpdates now none rfl,
    repoUpdate_approved_at stored eventId resubmitUpdates now none rfl,
    repoUpdate_moderator_note stored eventId resubmitUpdates now
      (some "Событие отправлено на повторную модерацию.") rfl,
    repoUpdate_attendees_set stored eventId resubmitUpdates now [] rfl,
    repoUpdate_moderation_messages stored eventId resubmitUpdates now rfl⟩
  unfold cbResubmit
  simp [hmanage]

theorem resubmit_resets_fields_witness :
    (can_manage_event [] 5 (repoGet storedApproved5 1) = true
      ∧ ((repoGet storedApproved5 1).status = STATUS_APPROVED
        ∨ (repoGet storedApproved5 1).status = STATUS_REJECTED))
    ∧ (cbResubmit [] 5 (some (repoGet storedApproved5 1))
        = .write resubmitUpdates "Событие отправлено на модерацию"
      ∧ (repoUpdate storedApproved5 1 resubmitUpdates "T").2.status = STATUS_PENDING
      ∧ (repoUpdate storedApproved5 1 resubmitUpdates "T").2.approved_by = none
      ∧ (repoUpdate storedApproved5 1 resubmitUpdates "T").2.approved_at = none
      ∧ (repoUpdate storedApproved5 1 resubmitUpdates "T").2.moderator_note
          = some "Событие отправлено на повторную модерацию."
      ∧ (repoUpdate storedApproved5 1 resubmitUpdates "T").2.attendees = []
      ∧ (repoUpdate storedApproved5 1 resubmitUpdates "T").2.moderation_messages = []) :=
  ⟨⟨by decide, Or.inl (by decide)⟩,
    resubmit_resets_fields [] 5 storedApproved5 1 "T" (by decide) (Or.inl (by decide))⟩

/-- C4 counterexample: for an event where user 7 is already registered,
signup(7) followed by signoff(7) does not return the attendees list to
its pre-signup value `[7]` — signup is a guarded no-op and signoff then
removes the pre-existing registration, leaving `[]`. -/
theorem signup_signoff_cex :
    (repoGet storedApproved7 1).attendees = [7]
    ∧ cbSignup 7 (some (repoGet storedApproved7 1))
        = .noWrite "Вы уже записаны на событие."
    ∧ (repoGet (signupThenSignoff storedApproved7 1 7 "T1" "T2") 1).attendees = []
    ∧ ([] : List Int) ≠ [7] := by decide

/-- C4 amended: for a user who is *not* currently registered, signup
followed by signoff returns the attendees list to its pre-signup value,
and signoff alone for a never-registered user writes nothing and is
answered as a distinct no-op rather than an error. -/
theorem signup_signoff_roundtrip (stored : Payload) (eventId u : Int)
    (now1 now2 : String) (h : u ∉ (repoGet stored eventId).attendees) :
    cbSignoff u (some (repoGet stored eventId))
        = .noWrite "Вы не записаны на это событие."
    ∧ applyResult stored eventId now1 (cbSignoff u (some (repoGet stored eventId)))
        = stored
    ∧ (repoGet (signupThenSignoff stored eventId u now1 now2) eventId).attendees
        = (repoGet stored eventId).attendees := by
  have hnoop : cbSignoff u (some (repoGet stored eventId))
      = .noWrite "Вы не записаны на это событие." := by
    unfold cbSignoff
    simp [h]
  refine ⟨hnoop, by rw [hnoop]; rfl, ?_⟩
  unfold signupThenSignoff
  by_cases hst : (repoGet stored eventId).status = STATUS_APPROVED
  · have hsign : cbSignup u (some (repoGet stored eventId))
        = .write (signupUpdates (repoGet stored eventId) u) "Вы записались на событие." := by
      unfold cbSignup
      simp [hst, is_user_registered, h]
    rw [hsign]
    simp only [applyResult]
    have h1 : (repoGet (repoUpdate stored eventId
          (signupUpdates (repoGet stored eventId) u) now1).1 eventId).attendees
        = (repoGet stored eventId).attendees ++ [u] := by
      rw [repoGet_after_update_attendees]
      exact repoUpdate_attendees_set stored eventId _ now1
        ((repoGet stored eventId).attendees ++ [u]) rfl
    have hmem : u ∈ (repoGet (repoUpdate stored eventId
        (signupUpdates (repoGet stored eventId) u) now1).1 eventId).attendees := by
      rw [h1]
      simp
    have hsoff : cbSignoff u (some (repoGet (repoUpdate stored eventId
          (signupUpdates (repoGet stored eventId) u) now1).1 eventId))
        = .write (signoffUpdates (repoGet (repoUpdate stored eventId
            (signupUpdates (repoGet stored eventId) u) now1).1 eventId) u)
          "Запись отменена." := by
      unfold cbSignoff
      simp [hmem]
    rw [hsoff]
    simp only [applyResult]
    rw [repoGet_after_update_attendees]
    rw [repoUpdate_attendees_set _ _ _ _
      ((repoGet (repoUpdate stored eventId
        (signupUpdates (repoGet stored eventId) u) now1).1 eventId).attendees.filter
        (· ≠ u)) rfl]
    rw [h1, List.filter_append]
    have hself : (repoGet stored eventId).attendees.filter (· ≠ u)
        = (repoGet stored eventId).attendees := by
      rw [List.filter_eq_self]
      intro a ha
      simp only [ne_eq, decide_eq_true_eq]
      intro heq
      exact h (heq ▸ ha)
    rw [hself]
    simp
  · have hsign : cbSignup u (some (repoGet stored eventId))
        = .noWrite "Регистрация пока недоступна." := by
      unfold cbSignup
      simp [hst]
    rw [hsign]
    simp only [applyResult]
    rw [hnoop]

theorem signup_signoff_roundtrip_witness :
    (7 : Int) ∉ (repoGet ({ status := some "approved" } : Payload) 1).attendees
    ∧ (cbSignoff 7 (some (repoGet ({ status := some "approved" } : Payload) 1))
        = .noWrite "Вы не записаны на это событие."
      ∧ applyResult ({ status := some "approved" } : Payload) 1 "T1"
          (cbSignoff 7 (some (repoGet ({ status := some "approved" } : Payload) 1)))
        = ({ status := some "approved" } : Payload)
      ∧ (repoGet (signupThenSignoff ({ status := some "approved" } : Payload) 1 7 "T1" "T2")
          1).attendees
        = (repoGet ({ status := some "approved" } : Payload) 1).attendees) :=
  ⟨by decide, signup_signoff_roundtrip ({ status := some "approved" } : Payload) 1 7
    "T1" "T2" (by decide)⟩

/-- C1 counterexample: the approve handler has no guard against a
rejected event — an administrator approving a rejected event performs
the direct transition rejected → approved, which the claim rules out. -/
theorem status_transition_cex :
    (repoGet storedRejected 1).status = STATUS_REJECTED
    ∧ cbApprove [1] 1 (some (repoGet storedRejected 1)) "T"
        = .write (approveUpdates 1 "T") "Событие одобрено."
    ∧ (repoUpdate storedRejected 1 (approveUpdates 1 "T") "T").2.status
        = STATUS_APPROVED := by decide

/-- C1 amended: the status transitions produced by the five event
operations are exactly: approve moves any not-already-approved event
(pending or rejected) to approved, reject moves any not-already-rejected
event (pending or approved) to rejected, resubmission moves any event to
pending, and signup/signoff never change the status; handlers that write
nothing leave the stored document unchanged. -/
theorem status_transitions_amended (adminIds : List Int) (callerId : Int)
    (stored : Payload) (eventId : Int) (now : String) :
    (∀ u a, cbApprove adminIds callerId (some (repoGet stored eventId)) now = .write u a →
      (repoGet stored eventId).status ≠ STATUS_APPROVED
      ∧ (repoUpdate stored eventId u now).2.status = STATUS_APPROVED)
    ∧ (∀ u a, cbReject adminIds callerId (some (repoGet stored eventId)) now = .write u a →
      (repoGet stored eventId).status ≠ STATUS_REJECTED
      ∧ (repoUpdate stored eventId u now).2.status = STATUS_REJECTED)
    ∧ (∀ u a, cbResubmit adminIds callerId (some (repoGet stored eventId)) = .write u a →
      (repoUpdate stored eventId u now).2.status = STATUS_PENDING)
    ∧ (∀ u a, cbSignup callerId (some (repoGet stored eventId)) = .write u a →
      (repoUpdate stored eventId u now).2.status = (repoGet stored eventId).status)
    ∧ (∀ u a, cbSignoff callerId (some (repoGet stored eventId)) = .write u a →
      (repoUpdate stored eventId u now).2.status = (repoGet stored eventId).status)
    ∧ (∀ ans, applyResult stored eventId now (HandlerResult.noWrite ans) = stored) := by
  refine ⟨?_, ?_, ?_, ?_, ?_, fun _ => rfl⟩
  · intro u a hw
    simp only [cbApprove] at hw
    split_ifs at hw with h1 h2
    injection hw with hu ha
    subst hu
    exact ⟨h2, repoUpdate_status stored eventId _ now STATUS_APPROVED rfl⟩
  · intro u a hw
    simp only [cbReject] at hw
    split_ifs at hw with h1 h2
    injection hw with hu ha
    subst hu
    exact ⟨h2, repoUpdate_status stored eventId _ now STATUS_REJECTED rfl⟩
  · intro u a hw
    simp only [cbResubmit] at hw
    split_ifs at hw with h1
    injection hw with hu ha
    subst hu
    exact repoUpdate_status stored eventId _ now STATUS_PENDING rfl
  · intro u a hw
    simp only [cbSignup] at hw
    split_ifs at hw with h1 h2
    injection hw with hu ha
    subst hu
    exact repoUpdate_status_untouched stored eventId _ now rfl
  · intro u a hw
    simp only [cbSignoff] at hw
    split_ifs at hw with h1
    injection hw with hu ha
    subst hu
    exact repoUpdate_status_untouched stored eventId _ now rfl

theorem status_transitions_amended_witness :
    (repoGet ({ status := some "pending" } : Payload) 1).status ≠ STATUS_APPROVED
    ∧ (repoUpdate ({ status := some "pending" } : Payload) 1 (approveUpdates 1 "T")
        "T").2.status = STATUS_APPROVED :=
  (status_transitions_amended [1] 1 ({ status := some "pending" } : Payload) 1 "T").1
    (approveUpdates 1 "T") "Событие одобрено." (by decide)

lemma assocGet_addEventFor (acc : List (Int × List EventRecord)) (uid : Int)
    (e : EventRecord) (k : Int) :
    assocGet (addEventFor acc uid e) k
      = if k = uid then assocGet acc k ++ [e] else assocGet acc k := by
  induction acc with
  | nil =>
    by_cases h : k = uid
    · subst h
      simp [addEventFor, assocGet]
    · have h' : ¬ (uid = k) := fun hh => h hh.symm
      simp [addEventFor, assocGet, h, h']
  | cons p rest ih =>
    obtain ⟨k', v⟩ := p
    by_cases h1 : k' = uid
    · subst h1
      simp only [addEventFor, if_pos rfl]
      by_cases h2 : k = k'
      · subst h2
        simp [assocGet]
      · have h2' : ¬ (k' = k) := fun hh => h2 hh.symm
        simp [assocGet, h2, h2']
    · simp only [addEventFor, if_neg h1]
      by_cases h3 : k' = k
      · subst h3
        simp [assocGet, h1]
      · simp [assocGet, h3, ih]

lemma mem_assocKeys_addEventFor (acc : List (Int × List EventRecord)) (uid : Int)
    (e : EventRecord) (k : Int) :
    k ∈ assocKeys (addEventFor acc uid e) ↔ k ∈ assocKeys acc ∨ k = uid := by
  induction acc with
  | nil => simp [addEventFor, assocKeys]
  | cons p rest ih =>
    obtain ⟨k', v⟩ := p
    simp only [addEventFor]
    split_ifs with h1
    · subst h1
      simp only [assocKeys, List.map_cons, List.mem_cons]
      constructor
      · rintro (h | h)
        · exact Or.inl (Or.inl h)
        · exact Or.inl (Or.inr h)
      · rintro ((h | h) | h)
        · exact Or.inl h
        · exact Or.inr h
        · exact Or.inl (h ▸ rfl)
    · simp only [assocKeys, List.map_cons, List.mem_cons] at ih ⊢
      rw [ih]
      tauto

lemma nodup_assocKeys_addEventFor (acc : List (Int × List EventRecord)) (uid : Int)
    (e : EventRecord) (h : (assocKeys acc).Nodup) :
    (assocKeys (addEventFor acc uid e)).Nodup := by
  induction acc with
  | nil => simp [addEventFor, assocKeys]
  | cons p rest ih =>
    obtain ⟨k', v⟩ := p
    simp only [assocKeys, List.map_cons, List.nodup_cons] at h
    simp only [addEventFor]
    split_ifs with h1
    · subst h1
      simp only [assocKeys, List.map_cons, List.nodup_cons]
      exact h
    · simp only [assocKeys, List.map_cons, List.nodup_cons]
      refine ⟨?_, ih h.2⟩
      intro hmem
      rcases (mem_assocKeys_addEventFor rest uid e k').mp hmem with hm | hm
      · exact h.1 hm
      · exact h1 hm

lemma assocGet_foldl_add (uids : List Int) (e : EventRecord)
    (acc : List (Int × List EventRecord)) (k : Int) (hnd : uids.Nodup) :
    assocGet (uids.foldl (fun acc uid => addEventFor acc uid e) acc) k
      = if k ∈ uids then assocGet acc k ++ [e] else assocGet acc k := by
  induction uids generalizing acc with
  | nil => simp
  | cons uid rest ih =>
    simp only [List.nodup_cons] at hnd
    simp only [List.foldl_cons]
    rw [ih (addEventFor acc uid e) hnd.2]
    by_cases hk : k = uid
    · subst hk
      have hkr : k ∉ rest := hnd.1
      simp [hkr, assocGet_addEventFor]
    · rw [assocGet_addEventFor, if_neg hk]
      by_cases hr : k ∈ rest
      · simp [hr, hk]
      · simp [hr, hk]

lemma mem_assocKeys_foldl_add (uids : List Int) (e : EventRecord)
    (acc : List (Int × List EventRecord)) (k : Int) :
    k ∈ assocKeys (uids.foldl (fun acc uid => addEventFor acc uid e) acc)
      ↔ k ∈ assocKeys acc ∨ k ∈ uids := by
  induction uids generalizing acc with
  | nil => simp
  | cons uid rest ih =>
    simp only [List.foldl_cons, List.mem_cons]
    rw [ih (addEventFor acc uid e), mem_assocKeys_addEventFor]
    tauto

lemma nodup_assocKeys_foldl_add (uids : List Int) (e : EventRecord)
    (acc : List (Int × List EventRecord)) (h : (assocKeys acc).Nodup) :
    (assocKeys (uids.foldl (fun acc uid => addEventFor acc uid e) acc)).Nodup := by
  induction uids generalizing acc with
  | nil => exact h
  | cons uid rest ih =>
    simp only [List.foldl_cons]
    exact ih (addEventFor acc uid e) (nodup_assocKeys_addEventFor acc uid e h)

lemma assocGet_foldl_events (events : List EventRecord)
    (acc : List (Int × List EventRecord)) (k : Int) :
    assocGet (events.foldl
        (fun acc e => e.attendees.dedup.foldl (fun acc uid => addEventFor acc uid e) acc)
        acc) k
      = assocGet acc k ++ events.filter (fun e => decide (k ∈ e.attendees)) := by
  induction events generalizing acc with
  | nil => simp
  | cons e rest ih =>
    simp only [List.foldl_cons]
    rw [ih]
    rw [assocGet_foldl_add e.attendees.dedup e acc k (List.nodup_dedup _)]
    by_cases hk : k ∈ e.attendees
    · have : k ∈ e.attendees.dedup := List.mem_dedup.mpr hk
      simp [this, hk, List.filter_cons]
    · have : k ∉ e.attendees.dedup := fun hc => hk (List.mem_dedup.mp hc)
      simp [this, hk, List.filter_cons]

lemma mem_assocKeys_foldl_events (events : List EventRecord)
    (acc : List (Int × List EventRecord)) (k : Int) :
    k ∈ assocKeys (events.foldl
        (fun acc e => e.attendees.dedup.foldl (fun acc uid => addEventFor acc uid e) acc)
        acc)
      ↔ k ∈ assocKeys acc ∨ ∃ e ∈ events, k ∈ e.attendees := by
  induction events generalizing acc with
  | nil => simp
  | cons e rest ih =>
    simp only [List.foldl_cons]
    rw [ih, mem_assocKeys_foldl_add]
    simp only [List.mem_dedup, List.mem_cons]
    constructor
    · rintro ((h | h) | ⟨e', he', hk⟩)
      · exact Or.inl h
      · exact Or.inr ⟨e, Or.inl rfl, h⟩
      · exact Or.inr ⟨e', Or.inr he', hk⟩
    · rintro (h | ⟨e', (rfl | he'), hk⟩)
      · exact Or.inl (Or.inl h)
      · exact Or.inl (Or.inr hk)
      · exact Or.inr ⟨e', he', hk⟩

lemma nodup_assocKeys_usersEvents (events : List EventRecord) :
    (assocKeys (usersEvents events)).Nodup := by
  unfold usersEvents
  generalize hacc : ([] : List (Int × List EventRecord)) = acc
  have hnd : (assocKeys acc).Nodup := by
    rw [← hacc]
    simp [assocKeys]
  clear hacc
  induction events generalizing acc with
  | nil => exact hnd
  | cons e rest ih =>
    simp only [List.foldl_cons]
    exact ih _ (nodup_assocKeys_foldl_add e.attendees.dedup e acc hnd)

lemma usersEvents_get (events : List EventRecord) (k : Int) :
    assocGet (usersEvents events) k
      = events.filter (fun e => decide (k ∈ e.attendees)) := by
  unfold usersEvents
  rw [assocGet_foldl_events]
  rfl

lemma mem_assocKeys_usersEvents (events : List EventRecord) (k : Int) :
    k ∈ assocKeys (usersEvents events) ↔ ∃ e ∈ events, k ∈ e.attendees := by
  unfold usersEvents
  rw [mem_assocKeys_foldl_events]
  simp [assocKeys]

lemma entry_eq_assocGet (acc : List (Int × List EventRecord))
    (hnd : (assocKeys acc).Nodup) (p : Int × List EventRecord) (hp : p ∈ acc) :
    p.2 = assocGet acc p.1 := by
  induction acc with
  | nil => cases hp
  | cons q rest ih =>
    obtain ⟨k', v⟩ := q
    simp only [assocKeys, List.map_cons, List.nodup_cons] at hnd
    rcases List.mem_cons.mp hp with rfl | hmem
    · simp [assocGet]
    · have hne : k' ≠ p.1 := by
        intro hc
        exact hnd.1 (hc ▸ List.mem_map_of_mem Prod.fst hmem)
      simp only [assocGet, if_neg hne]
      exact ih hnd.2 hmem

lemma entry_snd_ne_nil (events : List EventRecord) (p : Int × List EventRecord)
    (hp : p ∈ usersEvents events) : p.2 ≠ [] := by
  have hkey : p.1 ∈ assocKeys (usersEvents events) :=
    List.mem_map_of_mem Prod.fst hp
  obtain ⟨e, he, hke⟩ := (mem_assocKeys_usersEvents events p.1).mp hkey
  rw [entry_eq_assocGet (usersEvents events) (nodup_assocKeys_usersEvents events) p hp,
    usersEvents_get]
  exact List.ne_nil_of_mem (List.mem_filter.mpr ⟨he, by simpa using hke⟩)

lemma filterMap_sort_eq_map (r : EventRecord → EventRecord → Prop) [DecidableRel r]
    (failing : List Int) (l : List (Int × List EventRecord))
    (h : ∀ p ∈ l, p.2 ≠ []) :
    (l.filterMap fun p =>
        if (p.2.insertionSort r).isEmpty then none
        else some (p.1, p.2.insertionSort r, decide (p.1 ∉ failing)))
      = l.map fun p => (p.1, p.2.insertionSort r, decide (p.1 ∉ failing)) := by
  induction l with
  | nil => rfl
  | cons p rest ih =>
    have hp : p.2 ≠ [] := h p (List.mem_cons_self p rest)
    have hnil : p.2.insertionSort r ≠ [] := by
      intro hc
      have hperm := List.perm_insertionSort r p.2
      rw [hc] at hperm
      exact hp hperm.symm.eq_nil
    have hfalse : (p.2.insertionSort r).isEmpty = false := by
      cases hq : p.2.insertionSort r with
      | nil => exact absurd hq hnil
      | cons x xs => rfl
    rw [List.filterMap_cons, List.map_cons, hfalse]
    simp only [Bool.false_eq_true, if_false]
    rw [ih fun q hq => h q (List.mem_cons_of_mem p hq)]

lemma reminderDeliveries_eq_map (parse : String → Option Int)
    (events : List EventRecord) (tomorrowDate now : Int) (failing : List Int) :
    reminderDeliveries parse events tomorrowDate now failing
      = (usersEvents (eventsForTomorrow parse events tomorrowDate)).map
          (fun p => (p.1, p.2.insertionSort
              (fun a b => reminderKey parse now a ≤ reminderKey parse now b),
            decide (p.1 ∉ failing))) := by
  unfold reminderDeliveries
  exact filterMap_sort_eq_map _ failing _
    (entry_snd_ne_nil (eventsForTomorrow parse events tomorrowDate))

/-- C7: the daily sweep selects exactly the approved events whose
(parsed) start date equals tomorrow's calendar date; it prepares exactly
one consolidated delivery per distinct attendee id occurring in the
selected events (an id listed multiple times in one event contributes
that event once), each delivery's event list is chronologically sorted
by start time, and the set of attempted deliveries and their contents do
not depend on which recipients' sends fail. -/
theorem reminder_sweep_correct (parse : String → Option Int)
    (events : List EventRecord) (tomorrowDate now : Int)
    (failing failing2 : List Int) :
    (∀ e, e ∈ eventsForTomorrow parse events tomorrowDate
      ↔ e ∈ events ∧ e.status = STATUS_APPROVED
        ∧ ∃ t, scheduledDatetime parse e = some t ∧ dateOf t = tomorrowDate)
    ∧ ((reminderDeliveries parse events tomorrowDate now failing).map
        (fun d => d.1)).Nodup
    ∧ (∀ uid,
        uid ∈ (reminderDeliveries parse events tomorrowDate now failing).map
          (fun d => d.1)
        ↔ ∃ e ∈ eventsForTomorrow parse events tomorrowDate, uid ∈ e.attendees)
    ∧ (∀ d ∈ reminderDeliveries parse events tomorrowDate now failing,
        d.2.1.Perm ((eventsForTomorrow parse events tomorrowDate).filter
          (fun e => decide (d.1 ∈ e.attendees)))
        ∧ d.2.1.Sorted (fun a b => reminderKey parse now a ≤ reminderKey parse now b)
        ∧ d.2.2 = decide (d.1 ∉ failing))
    ∧ (reminderDeliveries parse events tomorrowDate now failing).map
        (fun d => (d.1, d.2.1))
      = (reminderDeliveries parse events tomorrowDate now failing2).map
        (fun d => (d.1, d.2.1)) := by
  refine ⟨?_, ?_, ?_, ?_, ?_⟩
  · intro e
    rw [eventsForTomorrow, List.mem_filter]
    unfold tomorrowSelect
    cases h : scheduledDatetime parse e with
    | none => simp [h]
    | some t => simp [h, and_assoc]
  · rw [reminderDeliveries_eq_map, List.map_map]
    simpa [assocKeys, Function.comp] using
      nodup_assocKeys_usersEvents (eventsForTomorrow parse events tomorrowDate)
  · intro uid
    rw [reminderDeliveries_eq_map, List.map_map]
    have := mem_assocKeys_usersEvents (eventsForTomorrow parse events tomorrowDate) uid
    simpa [assocKeys, Function.comp] using this
  · intro d hd
    rw [reminderDeliveries_eq_map] at hd
    obtain ⟨p, hp, rfl⟩ := List.mem_map.mp hd
    haveI hto : IsTotal EventRecord
        (fun a b => reminderKey parse now a ≤ reminderKey parse now b) :=
      ⟨fun a b => le_total _ _⟩
    haveI htr : IsTrans EventRecord
        (fun a b => reminderKey parse now a ≤ reminderKey parse now b) :=
      ⟨fun a b c hab hbc => le_trans hab hbc⟩
    refine ⟨?_, List.sorted_insertionSort _ _, rfl⟩
    have h2 : p.2 = (eventsForTomorrow parse events tomorrowDate).filter
        (fun e => decide (p.1 ∈ e.attendees)) := by
      rw [entry_eq_assocGet _ (nodup_assocKeys_usersEvents _) p hp, usersEvents_get]
    exact (List.perm_insertionSort _ p.2).trans (h2 ▸ List.Perm.refl p.2)
  · rw [reminderDeliveries_eq_map, reminderDeliveries_eq_map, List.map_map,
      List.map_map]
    rfl
